import Mathlib

set_option maxHeartbeats 1000000

/-!
Verification development for the contact-manager program (`HW-1.py`):
field validators (`Phone`, `Birthday`), `Record`, `AddressBook`,
the upcoming-birthdays calculator and the CLI command handlers.

Machine conventions of the embedding:
* Python `datetime.date` is a `Date` structure; `date.toordinal` is `toOrdinal`,
  `date.weekday()` (Monday = 0) is `weekday`, `date.replace(year=...)` is
  `replaceYear` (returning `none` where Python raises `ValueError`),
  `date + timedelta(days=k)` is `addDays` (overflow past year 9999, where
  Python raises `OverflowError`, is checked at the call site).
* Python exceptions are modelled with `Option`/`Except`; mutable state is
  passed explicitly, and a raising operation returns the state it leaves
  behind together with the error message.
-/

/-- Calendar date, the model of Python `datetime.date` (and of the date part of
`datetime.datetime`, which is all the program ever uses). -/
structure Date where
  year : Nat
  month : Nat
  day : Nat
deriving DecidableEq

/-- Gregorian leap-year rule used by `datetime`. -/
def isLeap (y : Nat) : Bool :=
  y % 4 == 0 && (y % 100 != 0 || y % 400 == 0)

/-- Number of days in month `m` of year `y` (as in `calendar`/`datetime`). -/
def daysInMonth (y m : Nat) : Nat :=
  if m = 2 then (if isLeap y then 29 else 28)
  else if m = 4 ∨ m = 6 ∨ m = 9 ∨ m = 11 then 30
  else 31

/-- Days in year `y` strictly before the first of month `m`. -/
def daysBeforeMonth (y m : Nat) : Nat :=
  let lp : Nat := if isLeap y then 1 else 0
  match m with
  | 1 => 0
  | 2 => 31
  | 3 => 59 + lp
  | 4 => 90 + lp
  | 5 => 120 + lp
  | 6 => 151 + lp
  | 7 => 181 + lp
  | 8 => 212 + lp
  | 9 => 243 + lp
  | 10 => 273 + lp
  | 11 => 304 + lp
  | _ => 334 + lp

/-- Days strictly before January 1 of year `y` counted from the proleptic
Gregorian epoch, as in CPython's `_days_before_year`. -/
def daysBeforeYear (y : Nat) : Nat :=
  365 * (y - 1) + (y - 1) / 4 + (y - 1) / 400 - (y - 1) / 100

/-- Python `date.toordinal()`: 0001-01-01 has ordinal 1. -/
def toOrdinal (d : Date) : Nat :=
  daysBeforeYear d.year + daysBeforeMonth d.year d.month + d.day

/-- Python `date.weekday()`: Monday = 0, ..., Sunday = 6. -/
def weekday (d : Date) : Nat :=
  (toOrdinal d + 6) % 7

/-- The `datetime.date` constructor invariant: month and day in range
(years have no upper bound here; the MAXYEAR bound is checked where
`datetime` checks it, in `replaceYear` and on `timedelta` overflow). -/
def Date.valid (d : Date) : Bool :=
  1 ≤ d.year && 1 ≤ d.month && d.month ≤ 12 && 1 ≤ d.day &&
    d.day ≤ daysInMonth d.year d.month

/-- Python `date.__lt__`: lexicographic on (year, month, day). -/
def dateLt (a b : Date) : Bool :=
  a.year < b.year ||
    (a.year == b.year &&
      (a.month < b.month || (a.month == b.month && a.day < b.day)))

/-- Successor day in the calendar. -/
def nextDay (d : Date) : Date :=
  if d.day < daysInMonth d.year d.month then ⟨d.year, d.month, d.day + 1⟩
  else if d.month < 12 then ⟨d.year, d.month + 1, 1⟩
  else ⟨d.year + 1, 1, 1⟩

/-- Python `date + timedelta(days=k)` for `k ≥ 0`, one day at a time. -/
def addDays : Date → Nat → Date
  | d, 0 => d
  | d, k + 1 => addDays (nextDay d) k

/-- Python `date.replace(year=y)`: re-runs the `date` constructor checks
(`MINYEAR ≤ y ≤ MAXYEAR`, day within month), raising `ValueError`
(modelled as `none`) when they fail — the unhandled Feb-29 path. -/
def replaceYear (d : Date) (y : Nat) : Option Date :=
  if y ≤ 9999 && Date.valid ⟨y, d.month, d.day⟩ then some ⟨y, d.month, d.day⟩
  else none

/-- Decimal digit character, as produced by `strftime` field formatting. -/
def digitChar (n : Nat) : Char :=
  match n with
  | 0 => '0'
  | 1 => '1'
  | 2 => '2'
  | 3 => '3'
  | 4 => '4'
  | 5 => '5'
  | 6 => '6'
  | 7 => '7'
  | 8 => '8'
  | _ => '9'

/-- Two-digit zero-padded field (`%d`, `%m`). -/
def pad2 (n : Nat) : List Char :=
  [digitChar (n / 10 % 10), digitChar (n % 10)]

/-- Four-digit zero-padded field (`%Y`; years here always come from the
4-digit `strptime` pattern, so they fit). -/
def pad4 (n : Nat) : List Char :=
  [digitChar (n / 1000 % 10), digitChar (n / 100 % 10),
   digitChar (n / 10 % 10), digitChar (n % 10)]

/-- Python `strftime("%d.%m.%Y")` on a date: zero-padded day and month, 4-digit year. -/
def renderDate (d : Date) : String :=
  String.mk (pad2 d.day ++ '.' :: (pad2 d.month ++ '.' :: pad4 d.year))

/-- Split a character list on `'.'` (the literal separators of the
`"%d.%m.%Y"` format). -/
def splitDots : List Char → List (List Char)
  | [] => [[]]
  | c :: rest =>
    if c = '.' then [] :: splitDots rest
    else
      match splitDots rest with
      | [] => [[c]]
      | g :: gs => (c :: g) :: gs

/-- Numeric value of a digit group matched by `strptime`. -/
def chompNat : List Char → Nat
  | [] => 0
  | c :: cs => (c.toNat - 48) * 10 ^ cs.length + chompNat cs

/-- Nonempty all-digit character group. -/
def isDigits (cs : List Char) : Bool :=
  !cs.isEmpty && cs.all Char.isDigit

/-- Model of `datetime.strptime(s, "%d.%m.%Y")` followed by taking the date:
the `%d` pattern matches one or two digits with value 1..31, `%m` one or two
digits with value 1..12, `%Y` exactly four digits; the `datetime` constructor
then rejects out-of-range days and year 0. Returns `none` where Python
raises `ValueError`. -/
def parseDate (s : String) : Option Date :=
  match splitDots s.data with
  | [ds, ms, ys] =>
    if isDigits ds && ds.length ≤ 2 && isDigits ms && ms.length ≤ 2 &&
        isDigits ys && ys.length == 4 then
      if 1 ≤ chompNat ds && chompNat ds ≤ 31 &&
          1 ≤ chompNat ms && chompNat ms ≤ 12 then
        if 1 ≤ chompNat ys &&
            chompNat ds ≤ daysInMonth (chompNat ys) (chompNat ms) then
          some ⟨chompNat ys, chompNat ms, chompNat ds⟩
        else none
      else none
    else none
  | _ => none

/-- A stored phone number: `Phone` wraps its raw string `value`. -/
structure Phone where
  value : String
deriving DecidableEq

/-- Codepoint ranges (inclusive) of the characters Python `str.isdigit`
accepts — Unicode Numeric_Type Decimal or Digit, exported from CPython's
Unicode database; the ASCII digits 48-57 are only the first range
(e.g. the Arabic-Indic digits 1632-1641 and the superscripts 178, 179,
185 also pass). -/
def pyDigitRanges : List (Nat × Nat) :=
  [(48, 57), (178, 179), (185, 185), (1632, 1641), (1776, 1785), (1984,
   1993), (2406, 2415), (2534, 2543), (2662, 2671), (2790, 2799), (2918,
   2927), (3046, 3055), (3174, 3183), (3302, 3311), (3430, 3439), (3558,
   3567), (3664, 3673), (3792, 3801), (3872, 3881), (4160, 4169), (4240,
   4249), (4969, 4977), (6112, 6121), (6160, 6169), (6470, 6479), (6608,
   6618), (6784, 6793), (6800, 6809), (6992, 7001), (7088, 7097), (7232,
   7241), (7248, 7257), (8304, 8304), (8308, 8313), (8320, 8329), (9312,
   9320), (9332, 9340), (9352, 9360), (9450, 9450), (9461, 9469), (9471,
   9471), (10102, 10110), (10112, 10120), (10122, 10130), (42528, 42537),
   (43216, 43225), (43264, 43273), (43472, 43481), (43504, 43513), (43600,
   43609), (44016, 44025), (65296, 65305), (66720, 66729), (68160, 68163),
   (68912, 68921), (69216, 69224), (69714, 69722), (69734, 69743), (69872,
   69881), (69942, 69951), (70096, 70105), (70384, 70393), (70736, 70745),
   (70864, 70873), (71248, 71257), (71360, 71369), (71472, 71481), (71904,
   71913), (72016, 72025), (72784, 72793), (73040, 73049), (73120, 73129),
   (92768, 92777), (92864, 92873), (93008, 93017), (120782, 120831),
   (123200, 123209), (123632, 123641), (125264, 125273), (127232, 127242),
   (130032, 130041)]

/-- One character of a `str.isdigit`-true string: a Unicode digit
character, not merely an ASCII one. -/
def pyIsDigitChar (c : Char) : Bool :=
  pyDigitRanges.any (fun r => r.1 ≤ c.toNat && c.toNat ≤ r.2)

/-- The `Phone.__init__` validity test of line 29:
`isinstance(value, str) and value.isdigit() and len(value) == 10`, with
`str.isdigit` true exactly on nonempty strings of Unicode digit
characters. -/
def validPhoneStr (v : String) : Bool :=
  (!v.data.isEmpty && v.data.all pyIsDigitChar) && v.data.length == 10

/-- Model of `Phone.__init__`: wraps the string or raises `ValueError` with the fixed
message (modelled as `Except.error`). -/
def Phone.init (v : String) : Except String Phone :=
  if validPhoneStr v then .ok ⟨v⟩
  else .error "Phone number must be a string containing exactly 10 digits."

/-- Model of `Birthday.__init__`: parses `DD.MM.YYYY` via `strptime`, re-raising any
parse failure as `ValueError("Invalid date format. Use DD.MM.YYYY")`. -/
def Birthday.init (s : String) : Except String Date :=
  match parseDate s with
  | some d => .ok d
  | none => .error "Invalid date format. Use DD.MM.YYYY"

/-- One contact: a name, an ordered phone list, an optional birthday
(the birthday stores the parsed date, i.e. `Birthday.value`). -/
structure Record where
  name : String
  phones : List Phone
  birthday : Option Date
deriving DecidableEq

/-- Model of `Record.find_phone`: first phone whose wrapped value equals the query. -/
def Record.find_phone (r : Record) (v : String) : Option Phone :=
  r.phones.find? (fun p => p.value == v)

/-- Remove the first phone with the given value, `none` when absent
(`list.remove` on the element found by the loop in `remove_phone`, which has
default object identity, so exactly the first match goes). -/
def removeFirst : List Phone → String → Option (List Phone)
  | [], _ => none
  | p :: rest, v =>
    if p.value == v then some rest
    else (removeFirst rest v).map (fun l => p :: l)

/-- Model of `Record.remove_phone`: drop the first matching phone; raise
`ValueError("Phone number not found.")` when no phone matches. The returned
`Record` is the state after the call (unchanged on the raising path). -/
def Record.remove_phone (r : Record) (v : String) : Record × Option String :=
  match removeFirst r.phones v with
  | some ps => ({ r with phones := ps }, none)
  | none => (r, some "Phone number not found.")

/-- Model of `Record.add_phone`: validate and append. -/
def Record.add_phone (r : Record) (v : String) : Record × Option String :=
  match Phone.init v with
  | .ok p => ({ r with phones := r.phones ++ [p] }, none)
  | .error e => (r, some e)

/-- Model of `Record.edit_phone`: look up `old_phone`, validate `new_phone`, and only
then remove the old and append the new. Each raising return carries the
record state at the moment of the raise. -/
def Record.edit_phone (r : Record) (old_phone new_phone : String) :
    Record × Option String :=
  match r.find_phone old_phone with
  | none => (r, some "Old phone number not found.")
  | some _ =>
    match Phone.init new_phone with
    | .error e => (r, some ("Invalid new phone number: " ++ e))
    | .ok newp =>
      match r.remove_phone old_phone with
      | (r2, some e) => (r2, some e)
      | (r2, none) => ({ r2 with phones := r2.phones ++ [newp] }, none)

/-- Model of `Record.add_birthday`: parse and store, overwriting. -/
def Record.add_birthday (r : Record) (s : String) : Record × Option String :=
  match Birthday.init s with
  | .ok d => ({ r with birthday := some d }, none)
  | .error e => (r, some e)

/-- First value stored under a key (`dict.get`): Python dicts have unique
keys, so first match is the match. -/
def dictGet : List (String × Record) → String → Option Record
  | [], _ => none
  | p :: rest, k => if p.1 == k then some p.2 else dictGet rest k

/-- Python `dict[k] = v`: replace in place when the key exists, else append. -/
def dictInsert : List (String × Record) → String → Record →
    List (String × Record)
  | [], k, v => [(k, v)]
  | p :: rest, k, v =>
    if p.1 == k then (k, v) :: rest else p :: dictInsert rest k v

/-- Python `del dict[k]` for unique-key data, as a total function (the caller
`AddressBook.delete` only deletes keys it has checked are present). -/
def eraseKey : List (String × Record) → String → List (String × Record)
  | [], _ => []
  | p :: rest, k => if p.1 == k then rest else p :: eraseKey rest k

/-- The `AddressBook`: the `UserDict` mapping name-string to `Record`, with
Python-dict insertion order kept in the list. -/
structure AddressBook where
  data : List (String × Record)
deriving DecidableEq

/-- Model of `AddressBook.add_record`: store (or overwrite) under `record.name.value`. -/
def AddressBook.add_record (book : AddressBook) (r : Record) : AddressBook :=
  ⟨dictInsert book.data r.name r⟩

/-- Model of `AddressBook.find`: `self.data.get(name)`. -/
def AddressBook.find (book : AddressBook) (name : String) : Option Record :=
  dictGet book.data name

/-- Model of `AddressBook.delete`: `if name in self.data: del self.data[name]`. -/
def AddressBook.delete (book : AddressBook) (name : String) : AddressBook :=
  ⟨eraseKey book.data name⟩

/-- One report line of the birthday calculator:
`{"name": ..., "congratulation_date": ...}`. -/
abbrev Entry := String × String

/-- The weekend shift of lines 129-130: if the congratulation date falls on
Saturday or Sunday, add `7 - weekday` days; a result past `date.max`
(year 9999) would raise `OverflowError` in Python, modelled as `none`. -/
def weekendShift (d : Date) : Option Date :=
  if 5 ≤ weekday d then
    if (addDays d (7 - weekday d)).year ≤ 9999 then
      some (addDays d (7 - weekday d))
    else none
  else some d

/-- The loop body of `get_upcoming_birthdays` for one record:
`none` = an exception escapes; `some none` = record skipped;
`some (some e)` = record reported with entry `e`. -/
def recordEntry (today : Date) (r : Record) : Option (Option Entry) :=
  match r.birthday with
  | none => some none
  | some birthday =>
    match replaceYear birthday today.year with
    | none => none
    | some bty =>
      match (if dateLt bty today then replaceYear bty (today.year + 1)
             else some bty) with
      | none => none
      | some b2 =>
        if (toOrdinal b2 : Int) - (toOrdinal today : Int) ≤ 7 then
          match weekendShift b2 with
          | none => none
          | some c => some (some (r.name, renderDate c))
        else some none

/-- The record loop of `get_upcoming_birthdays`: entries in book order, the
whole call aborted by the first exception. -/
def upcomingGo (today : Date) : List (String × Record) → Option (List Entry)
  | [] => some []
  | p :: rest =>
    match recordEntry today p.2 with
    | none => none
    | some none => upcomingGo today rest
    | some (some e) => (upcomingGo today rest).map (fun l => e :: l)

/-- Model of `get_upcoming_birthdays(book)` with the implicit `datetime.today()` made
an explicit `today` parameter; `none` models the unhandled `ValueError` /
`OverflowError` escaping the function. -/
def get_upcoming_birthdays (book : AddressBook) (today : Date) :
    Option (List Entry) :=
  upcomingGo today book.data

/-- Modelled from the spec: the "next occurrence" of a birthday as the claim
words it — the birthday's month/day in today's year, or in the next year if
that date is before today (`none` when no such calendar date exists). -/
def specNextOccurrence (birthday today : Date) : Option Date :=
  match replaceYear birthday today.year with
  | none => none
  | some d =>
    if dateLt d today then replaceYear birthday (today.year + 1) else some d

/-- Modelled from the spec: the congratulation date — the occurrence shifted
forward to the following Monday when it falls on Saturday or Sunday,
unchanged on weekdays. -/
def specCongrats (d : Date) : Date :=
  if 5 ≤ weekday d then addDays d (7 - weekday d) else d

/-- Modelled from the spec: the reported entry for one record — present
exactly when the record has a birthday whose next occurrence is at most
7 days from today, carrying the shifted date formatted `DD.MM.YYYY`. -/
def specEntry (today : Date) (r : Record) : Option Entry :=
  match r.birthday with
  | none => none
  | some birthday =>
    match specNextOccurrence birthday today with
    | none => none
    | some n =>
      if (toOrdinal n : Int) - (toOrdinal today : Int) ≤ 7 then
        some (r.name, renderDate (specCongrats n))
      else none

/-- Modelled from the spec: the full report, in book order. -/
def specUpcoming (book : AddressBook) (today : Date) : List Entry :=
  book.data.filterMap (fun p => specEntry today p.2)

/-- Python exception kinds distinguished by the `input_error` decorator. -/
inductive PyErr where
  | valueError (msg : String)
  | keyError
  | indexError
deriving DecidableEq

/-- Raw handler result: the book state left behind, and either the returned
`Option String` (Python handlers can fall off the end, returning `None`) or
an escaping exception. -/
abbrev HandlerResult := AddressBook × Except PyErr (Option String)

/-- The `input_error` decorator: `ValueError`, `KeyError` and `IndexError`
become their fixed user-facing strings; anything returned passes through. -/
def input_error (res : HandlerResult) : AddressBook × Option String :=
  match res with
  | (b, .ok v) => (b, v)
  | (b, .error (.valueError _)) => (b, some "Give me name and phone please.")
  | (b, .error .keyError) => (b, some "Contact not found.")
  | (b, .error .indexError) =>
    (b, some "Invalid command format. Use: [command] [name] [phone]")

/-- Handler `add_contact(args, book)`: guarded by `len(args) == 2`; falls
through (returning `None`) on any other arity. -/
def add_contact (args : List String) (book : AddressBook) : HandlerResult :=
  match args with
  | [name, phone] =>
    match dictGet book.data name with
    | some r =>
      match Phone.init phone with
      | .error e => (book, .error (.valueError e))
      | .ok p =>
        (⟨dictInsert book.data name { r with phones := r.phones ++ [p] }⟩,
         .ok (some "Phone added to existing contact."))
    | none =>
      match Phone.init phone with
      | .error e => (book, .error (.valueError e))
      | .ok p =>
        (⟨dictInsert book.data name ⟨name, [p], none⟩⟩,
         .ok (some "New contact added."))
  | _ => (book, .ok none)

/-- Handler `change_contact(args, book)`: guarded by `len(args) == 3`. The
in-place mutation of the found record is the update of its entry. -/
def change_contact (args : List String) (book : AddressBook) : HandlerResult :=
  match args with
  | [name, old_phone, new_phone] =>
    match dictGet book.data name with
    | some r =>
      match r.edit_phone old_phone new_phone with
      | (r2, some e) =>
        (⟨dictInsert book.data name r2⟩, .error (.valueError e))
      | (r2, none) =>
        (⟨dictInsert book.data name r2⟩, .ok (some "Contact updated."))
    | none => (book, .ok (some "Contact not found."))
  | _ => (book, .ok none)

/-- Handler `show_phone(args, book)`: guarded by `len(args) == 1`; returns
`None` both on wrong arity and when the name is absent. -/
def show_phone (args : List String) (book : AddressBook) : HandlerResult :=
  match args with
  | [name] =>
    match dictGet book.data name with
    | some r =>
      (book, .ok (some (String.intercalate "\n" (r.phones.map Phone.value))))
    | none => (book, .ok none)
  | _ => (book, .ok none)

/-- Handler `add_birthday(args, book)`: guarded by `len(args) == 2`. -/
def add_birthday (args : List String) (book : AddressBook) : HandlerResult :=
  match args with
  | [name, bstr] =>
    match dictGet book.data name with
    | some r =>
      match r.add_birthday bstr with
      | (_, some e) => (book, .error (.valueError e))
      | (r2, none) =>
        (⟨dictInsert book.data name r2⟩, .ok (some "Birthday added."))
    | none => (book, .ok (some "Contact not found."))
  | _ => (book, .ok none)

/-- Handler `show_birthday(args, book)`: guarded by `len(args) == 1`. -/
def show_birthday (args : List String) (book : AddressBook) : HandlerResult :=
  match args with
  | [name] =>
    match dictGet book.data name with
    | some r =>
      match r.birthday with
      | some d => (book, .ok (some (renderDate d)))
      | none => (book, .ok (some "Birthday not found."))
    | none => (book, .ok (some "Birthday not found."))
  | _ => (book, .ok none)

/-- Concrete book for the worked examples of the birthday window: Alice has
birthday 12.03.2001, Bob 16.03.1990. -/
def exampleBook : AddressBook :=
  ⟨[("Alice", ⟨"Alice", [⟨"1234567890"⟩], some ⟨2001, 3, 12⟩⟩),
    ("Bob", ⟨"Bob", [⟨"0987654321"⟩], some ⟨1990, 3, 16⟩⟩)]⟩

/-- The worked examples' today: Sunday, 10.03.2024. -/
def exampleToday : Date := ⟨2024, 3, 10⟩

theorem wrongArity_add_contact (args : List String) (book : AddressBook)
    (h : args.length ≠ 2) : input_error (add_contact args book) = (book, none) := by
  match args with
  | [] => rfl
  | [a] => rfl
  | [a, b] => exact absurd rfl h
  | a :: b :: c :: rest => rfl

theorem wrongArity_change_contact (args : List String) (book : AddressBook)
    (h : args.length ≠ 3) : input_error (change_contact args book) = (book, none) := by
  match args with
  | [] => rfl
  | [a] => rfl
  | [a, b] => rfl
  | [a, b, c] => exact absurd rfl h
  | a :: b :: c :: d :: rest => rfl

theorem wrongArity_show_phone (args : List String) (book : AddressBook)
    (h : args.length ≠ 1) : input_error (show_phone args book) = (book, none) := by
  match args with
  | [] => rfl
  | [a] => exact absurd rfl h
  | a :: b :: rest => rfl

theorem wrongArity_add_birthday (args : List String) (book : AddressBook)
    (h : args.length ≠ 2) : input_error (add_birthday args book) = (book, none) := by
  match args with
  | [] => rfl
  | [a] => rfl
  | [a, b] => exact absurd rfl h
  | a :: b :: c :: rest => rfl

theorem wrongArity_show_birthday (args : List String) (book : AddressBook)
    (h : args.length ≠ 1) : input_error (show_birthday args book) = (book, none) := by
  match args with
  | [] => rfl
  | [a] => exact absurd rfl h
  | a :: b :: rest => rfl

/-- C3 is false as stated: `str.isdigit` on line 29 is Unicode-aware, so
`Phone` construction also succeeds on the ten Arabic-Indic digits
"٠١٢٣٤٥٦٧٨٩" — a string of length 10 none of whose characters is an ASCII
digit — refuting the claimed only-if direction of "succeeds iff ten ASCII
digits". -/
theorem phone_ascii_cex :
    ("٠١٢٣٤٥٦٧٨٩".data.all Char.isDigit) = false
    ∧ "٠١٢٣٤٥٦٧٨٩".data.length = 10
    ∧ validPhoneStr "٠١٢٣٤٥٦٧٨٩" = true
    ∧ Phone.init "٠١٢٣٤٥٦٧٨٩" = .ok ⟨"٠١٢٣٤٥٦٧٨٩"⟩ :=
  ⟨by decide, by decide, by decide, rfl⟩

/-- C3 (amended): `Phone` construction succeeds exactly on strings of ten
characters that Python `str.isdigit` accepts — Unicode digit characters,
of which ASCII digits are only a subcase — wrapping the input unchanged;
otherwise it fails with the fixed message "Phone number must be a string
containing exactly 10 digits." and no other effect. -/
theorem phone_init_spec (v : String) :
    (validPhoneStr v = true → Phone.init v = .ok ⟨v⟩)
    ∧ (validPhoneStr v = false →
        Phone.init v =
          .error "Phone number must be a string containing exactly 10 digits.")
    ∧ (validPhoneStr v = true ↔
        v.data.length = 10 ∧ ∀ c ∈ v.data, pyIsDigitChar c = true) := by
  refine ⟨fun h => by simp [Phone.init, h], fun h => by simp [Phone.init, h], ?_⟩
  simp only [validPhoneStr, Bool.and_eq_true, Bool.not_eq_true',
    List.all_eq_true, beq_iff_eq, List.isEmpty_eq_false_iff_exists_mem]
  constructor
  · rintro ⟨⟨_, hall⟩, hlen⟩
    exact ⟨hlen, hall⟩
  · rintro ⟨hlen, hall⟩
    refine ⟨⟨?_, hall⟩, hlen⟩
    have hne : v.data ≠ [] := by
      intro hnil
      rw [hnil] at hlen
      simp at hlen
    exact List.exists_mem_of_ne_nil v.data hne

theorem phone_init_spec_witness :
    validPhoneStr "0123456789" = true
    ∧ Phone.init "0123456789" = .ok ⟨"0123456789"⟩ :=
  ⟨by decide, (phone_init_spec "0123456789").1 (by decide)⟩

/-- C5: the Feb-29 failure path is reachable at the calculator's interface:
a book holding a record whose birthday is 29.02.2024 (a leap year, and a
string the `Birthday` parser accepts), with today 10.01.2025 (a non-leap
year), makes the direct year substitution fail, and
`get_upcoming_birthdays` raises (returns no result) instead of returning. -/
theorem feb29_unhandled :
    isLeap 2024 = true ∧ isLeap 2025 = false
    ∧ parseDate "29.02.2024" = some ⟨2024, 2, 29⟩
    ∧ replaceYear ⟨2024, 2, 29⟩ 2025 = none
    ∧ get_upcoming_birthdays ⟨[("Olha", ⟨"Olha", [], some ⟨2024, 2, 29⟩⟩)]⟩
        ⟨2025, 1, 10⟩ = none := by
  decide

/-- C6 is false as stated: the arity-guarded `add` handler, called through
the `input_error` wrapper with one argument, returns no string at all
(Python `None`) — not the standardized message "Invalid command format.
Use: [command] [name] [phone]". -/
theorem arity_message_cex :
    input_error (add_contact ["Alice"] ⟨[]⟩) = (⟨[]⟩, none)
    ∧ (none : Option String) ≠
        some "Invalid command format. Use: [command] [name] [phone]" := by
  constructor
  · rfl
  · decide

/-- C6 (amended): a wrong-length argument list makes each arity-taking
handler (`add`, `change`, `phone`, `add-birthday`, `show-birthday`) fall
through its `len(args)` guard and return the absent value `None` — never the
standardized arity message and never a crash; the message would only arise
from an `IndexError`, which the guards prevent. -/
theorem arity_returns_none (args : List String) (book : AddressBook) :
    (args.length ≠ 2 → input_error (add_contact args book) = (book, none))
    ∧ (args.length ≠ 3 → input_error (change_contact args book) = (book, none))
    ∧ (args.length ≠ 1 → input_error (show_phone args book) = (book, none))
    ∧ (args.length ≠ 2 → input_error (add_birthday args book) = (book, none))
    ∧ (args.length ≠ 1 → input_error (show_birthday args book) = (book, none)) :=
  ⟨wrongArity_add_contact args book, wrongArity_change_contact args book,
   wrongArity_show_phone args book, wrongArity_add_birthday args book,
   wrongArity_show_birthday args book⟩

theorem arity_returns_none_witness :
    input_error (add_contact ["Alice"] ⟨[]⟩) = (⟨[]⟩, none)
    ∧ input_error (show_birthday [] ⟨[]⟩) = (⟨[]⟩, none) :=
  ⟨(arity_returns_none ["Alice"] ⟨[]⟩).1 (by decide),
   (arity_returns_none [] ⟨[]⟩).2.2.2.2 (by decide)⟩

/-- C10: the `phone` handler with exactly one argument naming an absent
contact returns the absent value `None` (no user-facing string, in
particular not "Contact not found."), and `add_contact` with a wrong
argument count likewise returns `None`. -/
theorem silent_none_paths (book : AddressBook) (name : String)
    (h : dictGet book.data name = none) (args : List String)
    (h2 : args.length ≠ 2) :
    input_error (show_phone [name] book) = (book, none)
    ∧ input_error (add_contact args book) = (book, none) := by
  constructor
  · simp [show_phone, h, input_error]
  · exact wrongArity_add_contact args book h2

theorem silent_none_paths_witness :
    dictGet (AddressBook.data ⟨[]⟩) "Ghost" = none
    ∧ ([] : List String).length ≠ 2
    ∧ input_error (show_phone ["Ghost"] ⟨[]⟩) = (⟨[]⟩, none)
    ∧ input_error (add_contact [] ⟨[]⟩) = (⟨[]⟩, none) :=
  ⟨by decide, by decide,
   (silent_none_paths ⟨[]⟩ "Ghost" (by decide) [] (by decide)).1,
   (silent_none_paths ⟨[]⟩ "Ghost" (by decide) [] (by decide)).2⟩

theorem removeFirst_eq_none_iff (l : List Phone) (v : String) :
    removeFirst l v = none ↔ ∀ p ∈ l, p.value ≠ v := by
  induction l with
  | nil => simp [removeFirst]
  | cons p rest ih =>
    by_cases hp : p.value = v
    · simp [removeFirst, hp]
    · simp [removeFirst, hp, ih]

theorem removeFirst_first_match (l1 : List Phone) (p : Phone) (l2 : List Phone)
    (v : String) (hp : p.value = v) (h1 : ∀ q ∈ l1, q.value ≠ v) :
    removeFirst (l1 ++ p :: l2) v = some (l1 ++ l2) := by
  induction l1 with
  | nil => simp [removeFirst, hp]
  | cons q rest ih =>
    have hq : q.value ≠ v := h1 q (List.mem_cons_self q rest)
    simp [removeFirst, hq, ih (fun x hx => h1 x (List.mem_cons_of_mem q hx))]

/-- C9: `remove_phone` removes exactly the first phone whose wrapped value
equals the query, keeping all other phones (later duplicates included) in
order; with no match it fails with "Phone number not found." and the phone
list is unchanged. -/
theorem remove_phone_first_match (r : Record) (v : String) :
    ((∀ p ∈ r.phones, p.value ≠ v) →
      r.remove_phone v = (r, some "Phone number not found."))
    ∧ (∀ l1 p l2, r.phones = l1 ++ p :: l2 → p.value = v →
        (∀ q ∈ l1, q.value ≠ v) →
        r.remove_phone v = ({ r with phones := l1 ++ l2 }, none)) := by
  constructor
  · intro h
    simp [Record.remove_phone, (removeFirst_eq_none_iff r.phones v).mpr h]
  · intro l1 p l2 hsplit hp h1
    simp [Record.remove_phone, hsplit, removeFirst_first_match l1 p l2 v hp h1]

theorem remove_phone_first_match_witness :
    Record.remove_phone
        ⟨"A", [⟨"1112223334"⟩, ⟨"0123456789"⟩, ⟨"1112223334"⟩], none⟩
        "1112223334"
      = (⟨"A", [⟨"0123456789"⟩, ⟨"1112223334"⟩], none⟩, none) :=
  (remove_phone_first_match
      ⟨"A", [⟨"1112223334"⟩, ⟨"0123456789"⟩, ⟨"1112223334"⟩], none⟩
      "1112223334").2
    [] ⟨"1112223334"⟩ [⟨"0123456789"⟩, ⟨"1112223334"⟩] rfl rfl
    (by intro q hq; simp at hq)

theorem dictGet_eq_none_iff (l : List (String × Record)) (k : String) :
    dictGet l k = none ↔ ∀ p ∈ l, p.1 ≠ k := by
  induction l with
  | nil => simp [dictGet]
  | cons p rest ih =>
    by_cases hp : p.1 = k
    · simp [dictGet, hp]
    · simp [dictGet, hp, ih]

theorem dictGet_dictInsert_self (l : List (String × Record)) (k : String)
    (v : Record) : dictGet (dictInsert l k v) k = some v := by
  induction l with
  | nil => simp [dictInsert, dictGet]
  | cons p rest ih =>
    by_cases hp : p.1 = k
    · simp [dictInsert, dictGet, hp]
    · simp [dictInsert, dictGet, hp, ih]

theorem eraseKey_no_match (l : List (String × Record)) (k : String)
    (h : ∀ p ∈ l, p.1 ≠ k) : eraseKey l k = l := by
  induction l with
  | nil => rfl
  | cons p rest ih =>
    have hp : p.1 ≠ k := h p (List.mem_cons_self p rest)
    simp [eraseKey, hp, ih (fun x hx => h x (List.mem_cons_of_mem p hx))]

theorem dictGet_eraseKey_self (l : List (String × Record)) (k : String)
    (h : (l.map Prod.fst).Nodup) : dictGet (eraseKey l k) k = none := by
  induction l with
  | nil => rfl
  | cons p rest ih =>
    rw [List.map_cons, List.nodup_cons] at h
    by_cases hp : p.1 = k
    · simp only [eraseKey, if_pos (beq_iff_eq.mpr hp)]
      rw [dictGet_eq_none_iff]
      intro q hq hqk
      exact h.1 (by rw [hp, ← hqk]; exact List.mem_map_of_mem Prod.fst hq)
    · simp [eraseKey, dictGet, hp, ih h.2]

theorem dictGet_eraseKey_other (l : List (String × Record)) (k k' : String)
    (hk : k' ≠ k) : dictGet (eraseKey l k) k' = dictGet l k' := by
  induction l with
  | nil => rfl
  | cons p rest ih =>
    by_cases hp : p.1 = k
    · have hpk : p.1 ≠ k' := by rw [hp]; exact fun h => hk h.symm
      simp [eraseKey, dictGet, hp, hpk, Ne.symm hk]
    · by_cases hp' : p.1 = k'
      · simp [eraseKey, dictGet, hp, hp', hk]
      · simp [eraseKey, dictGet, hp, hp', hk, ih]

/-- C8: `find` returns none exactly when no entry is keyed by the name;
after `add_record r`, `find r.name` returns the stored record `r`; `delete`
is a no-op (raising nothing) on an absent name; and on a present name it
removes that entry (keys are unique by construction) while leaving every
other name's lookup unchanged. -/
theorem addressbook_ops (book : AddressBook) (name : String) (r : Record) :
    ((∀ p ∈ book.data, p.1 ≠ name) → book.find name = none)
    ∧ (book.add_record r).find r.name = some r
    ∧ (book.find name = none → book.delete name = book)
    ∧ ((book.data.map Prod.fst).Nodup → (book.delete name).find name = none)
    ∧ (∀ k, k ≠ name → (book.delete name).find k = book.find k) := by
  refine ⟨fun h => (dictGet_eq_none_iff book.data name).mpr h,
    dictGet_dictInsert_self book.data r.name r, fun h => ?_,
    fun h => dictGet_eraseKey_self book.data name h,
    fun k hk => dictGet_eraseKey_other book.data name k hk⟩
  have := (dictGet_eq_none_iff book.data name).mp h
  show (⟨eraseKey book.data name⟩ : AddressBook) = book
  rw [eraseKey_no_match book.data name this]

theorem addressbook_ops_witness :
    (AddressBook.find ⟨[("Bob", ⟨"Bob", [], none⟩)]⟩ "Alice" = none)
    ∧ (AddressBook.add_record ⟨[("Bob", ⟨"Bob", [], none⟩)]⟩
          ⟨"Alice", [⟨"0123456789"⟩], none⟩).find "Alice"
        = some ⟨"Alice", [⟨"0123456789"⟩], none⟩
    ∧ (AddressBook.delete ⟨[("Bob", ⟨"Bob", [], none⟩)]⟩ "Alice"
        = ⟨[("Bob", ⟨"Bob", [], none⟩)]⟩)
    ∧ (AddressBook.delete ⟨[("Bob", ⟨"Bob", [], none⟩)]⟩ "Bob").find "Bob"
        = none :=
  ⟨(addressbook_ops ⟨[("Bob", ⟨"Bob", [], none⟩)]⟩ "Alice"
      ⟨"Alice", [⟨"0123456789"⟩], none⟩).1 (by decide),
   (addressbook_ops ⟨[("Bob", ⟨"Bob", [], none⟩)]⟩ "Alice"
      ⟨"Alice", [⟨"0123456789"⟩], none⟩).2.1,
   (addressbook_ops ⟨[("Bob", ⟨"Bob", [], none⟩)]⟩ "Alice"
      ⟨"Alice", [⟨"0123456789"⟩], none⟩).2.2.1 (by decide),
   (addressbook_ops ⟨[("Bob", ⟨"Bob", [], none⟩)]⟩ "Bob"
      ⟨"Alice", [⟨"0123456789"⟩], none⟩).2.2.2.1 (by decide)⟩

/-- C2: `edit_phone` fails with the not-found error when no stored phone
equals `old_phone`, fails with the re-wrapped validation message when
`new_phone` is not a valid 10-digit phone, and every failing call leaves the
record (phones, name, birthday) exactly as it was: mutation only happens
after `new_phone` validates. -/
theorem edit_phone_atomic (r : Record) (old_phone new_phone : String) :
    ((∀ p ∈ r.phones, p.value ≠ old_phone) →
      r.edit_phone old_phone new_phone =
        (r, some "Old phone number not found."))
    ∧ ((∃ p ∈ r.phones, p.value = old_phone) →
        validPhoneStr new_phone = false →
        r.edit_phone old_phone new_phone =
          (r, some ("Invalid new phone number: " ++
            "Phone number must be a string containing exactly 10 digits.")))
    ∧ (∀ msg, (r.edit_phone old_phone new_phone).2 = some msg →
        (r.edit_phone old_phone new_phone).1 = r) := by
  refine ⟨fun h => ?_, fun hex hbad => ?_, fun msg hmsg => ?_⟩
  · have hfind : r.find_phone old_phone = none := by
      rw [Record.find_phone, List.find?_eq_none]
      intro p hp
      simp [h p hp]
    simp [Record.edit_phone, hfind]
  · obtain ⟨p, hp, hpv⟩ := hex
    have hfind : ∃ q, r.find_phone old_phone = some q := by
      have : (r.phones.find? (fun q => q.value == old_phone)).isSome := by
        rw [List.find?_isSome]
        exact ⟨p, hp, beq_iff_eq.mpr hpv⟩
      exact Option.isSome_iff_exists.mp this
    obtain ⟨q, hq⟩ := hfind
    simp [Record.edit_phone, hq, Phone.init, hbad]
  · unfold Record.edit_phone at hmsg ⊢
    cases hq : r.find_phone old_phone with
    | none => simp [hq]
    | some q =>
      cases hinit : Phone.init new_phone with
      | error e => simp [hq, hinit]
      | ok newp =>
        cases hrem : removeFirst r.phones old_phone with
        | none => simp [hq, hinit, Record.remove_phone, hrem]
        | some ps =>
          rw [hq] at hmsg
          simp only [hinit, Record.remove_phone, hrem] at hmsg
          exact absurd hmsg (by simp)

theorem edit_phone_atomic_witness :
    (∀ p ∈ Record.phones ⟨"A", [⟨"0123456789"⟩], none⟩, p.value ≠ "1") ∧
    Record.edit_phone ⟨"A", [⟨"0123456789"⟩], none⟩ "1" "2223334445"
      = (⟨"A", [⟨"0123456789"⟩], none⟩, some "Old phone number not found.") ∧
    validPhoneStr "12" = false ∧
    Record.edit_phone ⟨"A", [⟨"0123456789"⟩], none⟩ "0123456789" "12"
      = (⟨"A", [⟨"0123456789"⟩], none⟩,
         some ("Invalid new phone number: " ++
           "Phone number must be a string containing exactly 10 digits.")) :=
  ⟨by decide,
   (edit_phone_atomic ⟨"A", [⟨"0123456789"⟩], none⟩ "1" "2223334445").1
     (by decide),
   by decide,
   (edit_phone_atomic ⟨"A", [⟨"0123456789"⟩], none⟩ "0123456789" "12").2.1
     ⟨⟨"0123456789"⟩, by decide, by decide⟩ (by decide)⟩

theorem dictInsert_length_of_mem (l : List (String × Record)) (k : String)
    (v r : Record) (h : dictGet l k = some r) :
    (dictInsert l k v).length = l.length := by
  induction l with
  | nil => simp [dictGet] at h
  | cons p rest ih =>
    by_cases hp : p.1 = k
    · simp [dictInsert, hp]
    · rw [dictGet, if_neg (by simpa using hp)] at h
      simp [dictInsert, hp, ih h]

theorem dictInsert_of_absent (l : List (String × Record)) (k : String)
    (v : Record) (h : dictGet l k = none) :
    dictInsert l k v = l ++ [(k, v)] := by
  induction l with
  | nil => rfl
  | cons p rest ih =>
    by_cases hp : p.1 = k
    · rw [dictGet, if_pos (by simpa using hp)] at h
      simp at h
    · rw [dictGet, if_neg (by simpa using hp)] at h
      simp [dictInsert, hp, ih h]

/-- C7: with a valid phone, `add` on an existing name appends the phone to
that record (the contact count is unchanged, no duplicate contact), and on a
new name it adds one new record with that single phone at the end of the
book. -/
theorem add_contact_create_or_extend (book : AddressBook) (name phone : String)
    (hv : validPhoneStr phone = true) :
    (∀ r, dictGet book.data name = some r →
      input_error (add_contact [name, phone] book) =
        (⟨dictInsert book.data name { r with phones := r.phones ++ [⟨phone⟩] }⟩,
         some "Phone added to existing contact.")
      ∧ (dictInsert book.data name
          { r with phones := r.phones ++ [⟨phone⟩] }).length = book.data.length)
    ∧ (dictGet book.data name = none →
      input_error (add_contact [name, phone] book) =
        (⟨book.data ++ [(name, ⟨name, [⟨phone⟩], none⟩)]⟩,
         some "New contact added.")) := by
  constructor
  · intro r hr
    refine ⟨?_, dictInsert_length_of_mem book.data name _ r hr⟩
    simp [add_contact, hr, Phone.init, hv, input_error]
  · intro hnone
    rw [show (book.data ++ [(name, (⟨name, [⟨phone⟩], none⟩ : Record))]) =
      dictInsert book.data name ⟨name, [⟨phone⟩], none⟩ from
      (dictInsert_of_absent book.data name _ hnone).symm]
    simp [add_contact, hnone, Phone.init, hv, input_error]

theorem add_contact_create_or_extend_witness :
    validPhoneStr "0123456789" = true
    ∧ input_error (add_contact ["Alice", "0123456789"] ⟨[]⟩) =
        (⟨[("Alice", ⟨"Alice", [⟨"0123456789"⟩], none⟩)]⟩,
         some "New contact added.")
    ∧ input_error (add_contact ["Bob", "0123456789"]
          ⟨[("Bob", ⟨"Bob", [⟨"5556667778"⟩], none⟩)]⟩) =
        (⟨[("Bob", ⟨"Bob", [⟨"5556667778"⟩, ⟨"0123456789"⟩], none⟩)]⟩,
         some "Phone added to existing contact.") :=
  ⟨by decide,
   (add_contact_create_or_extend ⟨[]⟩ "Alice" "0123456789" (by decide)).2 rfl,
   ((add_contact_create_or_extend ⟨[("Bob", ⟨"Bob", [⟨"5556667778"⟩], none⟩)]⟩
      "Bob" "0123456789" (by decide)).1 ⟨"Bob", [⟨"5556667778"⟩], none⟩ rfl).1⟩

theorem isDigit_toNat_bounds (c : Char) (h : c.isDigit = true) :
    48 ≤ c.toNat ∧ c.toNat ≤ 57 := by
  simp only [Char.isDigit, Bool.and_eq_true, decide_eq_true_eq] at h
  exact ⟨h.1, h.2⟩

theorem digitChar_isDigit (n : Nat) : (digitChar n).isDigit = true := by
  unfold digitChar
  split <;> decide

theorem digitChar_ne_dot (n : Nat) : digitChar n ≠ '.' := by
  unfold digitChar
  split <;> decide

theorem digitChar_toNat (n : Nat) (h : n ≤ 9) :
    (digitChar n).toNat = 48 + n := by
  interval_cases n <;> decide

theorem splitDots_no_dot (l : List Char) (h : ∀ c ∈ l, c ≠ '.') :
    splitDots l = [l] := by
  induction l with
  | nil => rfl
  | cons c rest ih =>
    have hc : c ≠ '.' := h c (List.mem_cons_self c rest)
    rw [splitDots, if_neg hc, ih (fun x hx => h x (List.mem_cons_of_mem c hx))]

theorem splitDots_append (l rest : List Char) (h : ∀ c ∈ l, c ≠ '.') :
    splitDots (l ++ '.' :: rest) = l :: splitDots rest := by
  induction l with
  | nil => simp [splitDots]
  | cons c t ih =>
    have hc : c ≠ '.' := h c (List.mem_cons_self c t)
    rw [List.cons_append, splitDots, if_neg hc,
      ih (fun x hx => h x (List.mem_cons_of_mem c hx))]

theorem chompNat_lt (cs : List Char) (h : ∀ c ∈ cs, c.isDigit = true) :
    chompNat cs < 10 ^ cs.length := by
  induction cs with
  | nil => simp [chompNat]
  | cons c t ih =>
    have hc := isDigit_toNat_bounds c (h c (List.mem_cons_self c t))
    have ht := ih (fun x hx => h x (List.mem_cons_of_mem c hx))
    have hd : c.toNat - 48 ≤ 9 := by omega
    rw [chompNat, List.length_cons, pow_succ]
    have hP : 1 ≤ 10 ^ t.length := Nat.one_le_pow _ _ (by norm_num)
    nlinarith

theorem chompNat_pad2 (n : Nat) (h : n ≤ 99) : chompNat (pad2 n) = n := by
  have h1 : (digitChar (n / 10 % 10)).toNat = 48 + n / 10 % 10 :=
    digitChar_toNat _ (by omega)
  have h2 : (digitChar (n % 10)).toNat = 48 + n % 10 :=
    digitChar_toNat _ (by omega)
  simp only [pad2, chompNat, List.length_cons, List.length_nil, h1, h2]
  omega

theorem chompNat_pad4 (n : Nat) (h : n ≤ 9999) : chompNat (pad4 n) = n := by
  have h1 : (digitChar (n / 1000 % 10)).toNat = 48 + n / 1000 % 10 :=
    digitChar_toNat _ (by omega)
  have h2 : (digitChar (n / 100 % 10)).toNat = 48 + n / 100 % 10 :=
    digitChar_toNat _ (by omega)
  have h3 : (digitChar (n / 10 % 10)).toNat = 48 + n / 10 % 10 :=
    digitChar_toNat _ (by omega)
  have h4 : (digitChar (n % 10)).toNat = 48 + n % 10 :=
    digitChar_toNat _ (by omega)
  simp only [pad4, chompNat, List.length_cons, List.length_nil, h1, h2, h3, h4]
  omega

theorem pad2_length (n : Nat) : (pad2 n).length = 2 := rfl

theorem pad4_length (n : Nat) : (pad4 n).length = 4 := rfl

theorem isDigits_pad2 (n : Nat) : isDigits (pad2 n) = true := by
  simp [isDigits, pad2, digitChar_isDigit]

theorem isDigits_pad4 (n : Nat) : isDigits (pad4 n) = true := by
  simp [isDigits, pad4, digitChar_isDigit]

theorem pad2_ne_dot (n : Nat) : ∀ c ∈ pad2 n, c ≠ '.' := by
  intro c hc
  simp only [pad2, List.mem_cons, List.not_mem_nil, or_false] at hc
  rcases hc with h | h <;> exact h ▸ digitChar_ne_dot _

theorem pad4_ne_dot (n : Nat) : ∀ c ∈ pad4 n, c ≠ '.' := by
  intro c hc
  simp only [pad4, List.mem_cons, List.not_mem_nil, or_false] at hc
  rcases hc with h | h | h | h <;> exact h ▸ digitChar_ne_dot _

theorem parse_render_of_bounds (d : Date) (hd1 : 1 ≤ d.day) (hd31 : d.day ≤ 31)
    (hm1 : 1 ≤ d.month) (hm12 : d.month ≤ 12) (hy1 : 1 ≤ d.year)
    (hy : d.year ≤ 9999) (hdm : d.day ≤ daysInMonth d.year d.month) :
    parseDate (renderDate d) = some d := by
  have hsplit : splitDots (pad2 d.day ++ '.' :: (pad2 d.month ++ '.' :: pad4 d.year))
      = [pad2 d.day, pad2 d.month, pad4 d.year] := by
    rw [splitDots_append _ _ (pad2_ne_dot d.day),
      splitDots_append _ _ (pad2_ne_dot d.month),
      splitDots_no_dot _ (pad4_ne_dot d.year)]
  have hdata : (renderDate d).data
      = pad2 d.day ++ '.' :: (pad2 d.month ++ '.' :: pad4 d.year) := rfl
  rw [parseDate, hdata, hsplit]
  dsimp only
  rw [chompNat_pad2 d.day (by omega), chompNat_pad2 d.month (by omega),
    chompNat_pad4 d.year hy]
  rw [if_pos (show (isDigits (pad2 d.day) && decide ((pad2 d.day).length ≤ 2) &&
      isDigits (pad2 d.month) && decide ((pad2 d.month).length ≤ 2) &&
      isDigits (pad4 d.year) && ((pad4 d.year).length == 4)) = true by
    simp [isDigits_pad2, isDigits_pad4, pad2_length, pad4_length])]
  rw [if_pos (show (decide (1 ≤ d.day) && decide (d.day ≤ 31) &&
      decide (1 ≤ d.month) && decide (d.month ≤ 12)) = true by
    simp only [Bool.and_eq_true, decide_eq_true_eq]
    omega)]
  rw [if_pos (show (decide (1 ≤ d.year) &&
      decide (d.day ≤ daysInMonth d.year d.month)) = true by
    simp only [Bool.and_eq_true, decide_eq_true_eq]
    exact ⟨hy1, hdm⟩)]

theorem parseDate_bounds (s : String) (d : Date) (h : parseDate s = some d) :
    1 ≤ d.day ∧ d.day ≤ 31 ∧ 1 ≤ d.month ∧ d.month ≤ 12 ∧ 1 ≤ d.year ∧
      d.year ≤ 9999 ∧ d.day ≤ daysInMonth d.year d.month := by
  unfold parseDate at h
  split at h
  case h_2 => exact absurd h (by simp)
  case h_1 x ds ms ys heq =>
    split at h
    case isFalse => exact absurd h (by simp)
    case isTrue hguard =>
      split at h
      case isFalse => exact absurd h (by simp)
      case isTrue hrange =>
        split at h
        case isFalse => exact absurd h (by simp)
        case isTrue hfinal =>
          simp only [Bool.and_eq_true, decide_eq_true_eq, beq_iff_eq]
            at hguard hrange hfinal
          have hy4 : chompNat ys < 10 ^ ys.length := by
            apply chompNat_lt
            have hdig := hguard.1.2
            simp only [isDigits, Bool.and_eq_true, List.all_eq_true] at hdig
            exact fun c hc => hdig.2 c hc
          rw [hguard.2] at hy4
          injection h with h
          subst h
          norm_num at hy4
          exact ⟨hrange.1.1.1, hrange.1.1.2, hrange.1.2, hrange.2,
            hfinal.1, by show chompNat ys ≤ 9999; omega, hfinal.2⟩

/-- C4 is false as stated for the render-parse direction: the `strptime`
pattern `%d.%m.%Y` also accepts non-zero-padded day and month, so
"1.2.2024" is accepted by the `Birthday` parser yet renders back as
"01.02.2024", not as itself. -/
theorem birthday_roundtrip_cex :
    Birthday.init "1.2.2024" = .ok ⟨2024, 2, 1⟩
    ∧ renderDate ⟨2024, 2, 1⟩ = "01.02.2024"
    ∧ renderDate ⟨2024, 2, 1⟩ ≠ "1.2.2024" := by
  refine ⟨rfl, by decide, by decide⟩

/-- C4 (amended): for every constructed `Birthday` the round trip holds in
the parse-after-render direction: if the parser accepts `s` as date `d`,
then rendering `d` in `DD.MM.YYYY` and parsing again yields `d` back; the
render-after-parse direction `render (parse s) = s` holds only for the
zero-padded canonical strings (such as every rendered output), not for all
accepted inputs. -/
theorem birthday_parse_render (s : String) (d : Date)
    (h : Birthday.init s = .ok d) :
    Birthday.init (renderDate d) = .ok d ∧ parseDate (renderDate d) = some d := by
  have hp : parseDate s = some d := by
    unfold Birthday.init at h
    cases hps : parseDate s with
    | none => rw [hps] at h; exact absurd h (by simp)
    | some d2 => rw [hps] at h; injection h with h; rw [h]
  obtain ⟨h1, h2, h3, h4, h5, h6, h7⟩ := parseDate_bounds s d hp
  have hres := parse_render_of_bounds d h1 h2 h3 h4 h5 h6 h7
  exact ⟨by rw [Birthday.init, hres], hres⟩

theorem birthday_parse_render_witness :
    Birthday.init "01.02.2024" = .ok ⟨2024, 2, 1⟩
    ∧ Birthday.init (renderDate ⟨2024, 2, 1⟩) = .ok ⟨2024, 2, 1⟩ :=
  ⟨rfl, (birthday_parse_render "01.02.2024" ⟨2024, 2, 1⟩ rfl).1⟩

theorem daysInMonth_pos (y m : Nat) : 1 ≤ daysInMonth y m := by
  unfold daysInMonth
  split_ifs <;> omega

theorem valid_nextDay (d : Date) (h : d.valid = true) :
    (nextDay d).valid = true := by
  simp only [Date.valid, Bool.and_eq_true, decide_eq_true_eq] at h
  obtain ⟨⟨⟨⟨hy, hm1⟩, hm12⟩, hd1⟩, hdm⟩ := h
  unfold nextDay
  split_ifs with h1 h2
  · simp only [Date.valid, Bool.and_eq_true, decide_eq_true_eq]
    exact ⟨⟨⟨⟨hy, hm1⟩, hm12⟩, by omega⟩, by omega⟩
  · simp only [Date.valid, Bool.and_eq_true, decide_eq_true_eq]
    exact ⟨⟨⟨⟨hy, by omega⟩, by omega⟩, by omega⟩, daysInMonth_pos _ _⟩
  · simp only [Date.valid, Bool.and_eq_true, decide_eq_true_eq]
    refine ⟨⟨⟨⟨by omega, by omega⟩, by omega⟩, by omega⟩, ?_⟩
    exact daysInMonth_pos _ _

theorem dbm_succ (y m : Nat) (h1 : 1 ≤ m) (h11 : m ≤ 11) :
    daysBeforeMonth y (m + 1) = daysBeforeMonth y m + daysInMonth y m := by
  interval_cases m <;>
    cases hl : isLeap y <;>
      simp [daysBeforeMonth, daysInMonth, hl]

theorem dby_succ (y : Nat) (hy : 1 ≤ y) :
    daysBeforeYear (y + 1)
      = daysBeforeYear y + 365 + (if isLeap y then 1 else 0) := by
  unfold daysBeforeYear isLeap
  split
  case isTrue hl =>
    simp only [Bool.and_eq_true, beq_iff_eq, bne_iff_ne, Bool.or_eq_true,
      ne_eq] at hl
    omega
  case isFalse hl =>
    simp only [Bool.and_eq_true, beq_iff_eq, bne_iff_ne, Bool.or_eq_true,
      ne_eq, not_and, not_or, not_not] at hl
    rcases Nat.eq_zero_or_pos (y % 4) with h4 | h4
    · have := hl h4
      omega
    · omega

theorem toOrdinal_nextDay (d : Date) (h : d.valid = true) :
    toOrdinal (nextDay d) = toOrdinal d + 1 := by
  simp only [Date.valid, Bool.and_eq_true, decide_eq_true_eq] at h
  obtain ⟨⟨⟨⟨hy, hm1⟩, hm12⟩, hd1⟩, hdm⟩ := h
  unfold nextDay
  split_ifs with h1 h2
  · simp only [toOrdinal]
    omega
  · simp only [toOrdinal]
    rw [dbm_succ d.year d.month hm1 (by omega)]
    omega
  · have hm : d.month = 12 := by omega
    have hdim : daysInMonth d.year d.month = 31 := by
      rw [hm, daysInMonth]
      norm_num
    have hd31 : d.day = 31 := by omega
    simp only [toOrdinal, hm, hd31]
    rw [dby_succ d.year hy]
    cases hl : isLeap d.year <;> simp [daysBeforeMonth, hl]

theorem toOrdinal_addDays (k : Nat) (d : Date) (h : d.valid = true) :
    toOrdinal (addDays d k) = toOrdinal d + k
    ∧ (addDays d k).valid = true := by
  induction k generalizing d with
  | zero => exact ⟨rfl, h⟩
  | succ n ih =>
    have hnd := valid_nextDay d h
    have hord := toOrdinal_nextDay d h
    obtain ⟨ih1, ih2⟩ := ih (nextDay d) hnd
    rw [show addDays d (n + 1) = addDays (nextDay d) n from rfl]
    exact ⟨by rw [ih1, hord]; omega, ih2⟩

theorem specCongrats_weekday_lt (d : Date) (h : weekday d < 5) :
    specCongrats d = d := by
  rw [specCongrats, if_neg (by omega)]

theorem specCongrats_weekend (d : Date) (hv : d.valid = true)
    (h : 5 ≤ weekday d) :
    weekday (specCongrats d) = 0
    ∧ toOrdinal (specCongrats d) = toOrdinal d + (7 - weekday d)
    ∧ 1 ≤ 7 - weekday d ∧ 7 - weekday d ≤ 2 := by
  have hwd : weekday d = (toOrdinal d + 6) % 7 := rfl
  have hord := (toOrdinal_addDays (7 - weekday d) d hv).1
  rw [specCongrats, if_pos h]
  refine ⟨?_, hord, by omega, ?_⟩
  · rw [weekday, hord]
    omega
  · rw [hwd] at h ⊢
    omega

theorem replaceYear_some (d : Date) (y : Nat) (d2 : Date)
    (h : replaceYear d y = some d2) :
    d2 = ⟨y, d.month, d.day⟩ ∧ d2.valid = true ∧ d2.year ≤ 9999 := by
  rw [replaceYear] at h
  split at h
  case isFalse => exact absurd h (by simp)
  case isTrue hc =>
    simp only [Bool.and_eq_true, decide_eq_true_eq] at hc
    injection h with h
    exact ⟨h.symm, h ▸ hc.2, h ▸ hc.1⟩

theorem weekendShift_some (d : Date) (c : Date)
    (h : weekendShift d = some c) : c = specCongrats d := by
  rw [weekendShift] at h
  rw [specCongrats]
  split at h
  case isTrue h5 =>
    rw [if_pos h5]
    split at h
    case isTrue => injection h with h; exact h.symm
    case isFalse => exact absurd h (by simp)
  case isFalse h5 =>
    rw [if_neg h5]
    injection h with h
    exact h.symm

theorem specNextOccurrence_eq (bday today bty : Date)
    (hr1 : replaceYear bday today.year = some bty) :
    specNextOccurrence bday today
      = (if dateLt bty today = true then replaceYear bty (today.year + 1)
         else some bty) := by
  obtain ⟨hbty, _, _⟩ := replaceYear_some bday today.year bty hr1
  simp only [specNextOccurrence, hr1]
  subst hbty
  rfl

theorem recordEntry_spec (today : Date) (r : Record) (o : Option Entry)
    (h : recordEntry today r = some o) : specEntry today r = o := by
  cases hb : r.birthday with
  | none =>
    simp only [recordEntry, hb] at h
    simp only [specEntry, hb]
    injection h
  | some bday =>
    simp only [recordEntry, hb] at h
    simp only [specEntry, hb]
    cases hr1 : replaceYear bday today.year with
    | none =>
      simp only [hr1] at h
      exact absurd h (by simp)
    | some bty =>
      simp only [hr1] at h
      rw [specNextOccurrence_eq bday today bty hr1]
      by_cases hlt : dateLt bty today = true
      · rw [if_pos hlt]
        rw [if_pos hlt] at h
        cases hr2 : replaceYear bty (today.year + 1) with
        | none =>
          simp only [hr2] at h
          exact absurd h (by simp)
        | some b2 =>
          simp only [hr2] at h
          dsimp only
          by_cases h7 : (toOrdinal b2 : Int) - (toOrdinal today : Int) ≤ 7
          · rw [if_pos h7] at h
            rw [if_pos h7]
            cases hws : weekendShift b2 with
            | none =>
              simp only [hws] at h
              exact absurd h (by simp)
            | some c =>
              simp only [hws, Option.some.injEq] at h
              rw [← h, weekendShift_some b2 c hws]
          · rw [if_neg h7] at h
            rw [if_neg h7]
            simp only [Option.some.injEq] at h
            exact h
      · rw [if_neg hlt]
        rw [if_neg hlt] at h
        dsimp only at h ⊢
        by_cases h7 : (toOrdinal bty : Int) - (toOrdinal today : Int) ≤ 7
        · rw [if_pos h7] at h
          rw [if_pos h7]
          cases hws : weekendShift bty with
          | none =>
            simp only [hws] at h
            exact absurd h (by simp)
          | some c =>
            simp only [hws, Option.some.injEq] at h
            rw [← h, weekendShift_some bty c hws]
        · rw [if_neg h7] at h
          rw [if_neg h7]
          simp only [Option.some.injEq] at h
          exact h

theorem upcomingGo_spec (today : Date) (l : List (String × Record))
    (h : ∀ p ∈ l, recordEntry today p.2 ≠ none) :
    upcomingGo today l
      = some (l.filterMap (fun p => specEntry today p.2)) := by
  induction l with
  | nil => rfl
  | cons p rest ih =>
    have hp := h p (List.mem_cons_self p rest)
    have hrest := ih (fun x hx => h x (List.mem_cons_of_mem p hx))
    cases he : recordEntry today p.2 with
    | none => exact absurd he hp
    | some o =>
      have hs := recordEntry_spec today p.2 o he
      cases o with
      | none => simp [upcomingGo, he, List.filterMap_cons, hs, hrest]
      | some e => simp [upcomingGo, he, List.filterMap_cons, hs, hrest]

/-- C1: whenever the per-record date computations are defined (no Feb-29 /
overflow exception), `get_upcoming_birthdays` returns exactly the records
with a birthday whose next occurrence (this year's month/day, or next
year's when that date is before today) is at most 7 days from today, each
reported with the congratulation date shifted to the following Monday when
the occurrence falls on Saturday or Sunday and unchanged on weekdays,
formatted `DD.MM.YYYY`; in particular, with today = 10.03.2024, a contact
with birthday 12.03 of an earlier year is reported as "12.03.2024", and a
contact whose computed date is Saturday 16.03.2024 is reported as
"18.03.2024". -/
theorem upcoming_birthdays_correct (book : AddressBook) (today : Date)
    (h : ∀ p ∈ book.data, recordEntry today p.2 ≠ none) :
    get_upcoming_birthdays book today = some (specUpcoming book today)
    ∧ (∀ d : Date, d.valid = true →
        (weekday d < 5 → specCongrats d = d)
        ∧ (5 ≤ weekday d → weekday (specCongrats d) = 0
            ∧ toOrdinal (specCongrats d) = toOrdinal d + (7 - weekday d)
            ∧ 1 ≤ 7 - weekday d ∧ 7 - weekday d ≤ 2))
    ∧ get_upcoming_birthdays exampleBook exampleToday
        = some [("Alice", "12.03.2024"), ("Bob", "18.03.2024")]
    ∧ weekday ⟨2024, 3, 16⟩ = 5 := by
  refine ⟨upcomingGo_spec today book.data h, fun d hv => ?_, by decide, by decide⟩
  exact ⟨fun hlt => specCongrats_weekday_lt d hlt,
    fun hge => specCongrats_weekend d hv hge⟩

theorem upcoming_birthdays_correct_witness :
    (∀ p ∈ exampleBook.data, recordEntry exampleToday p.2 ≠ none)
    ∧ get_upcoming_birthdays exampleBook exampleToday
        = some (specUpcoming exampleBook exampleToday) :=
  ⟨by decide,
   (upcoming_birthdays_correct exampleBook exampleToday (by decide)).1⟩
